import Mathlib

/-!
Verification of the CV-Manaiger deterministic core (date normalization,
range extraction, heuristic structure recovery, timeline analysis/sorting,
date-hint merge) against its natural-language specification.

The Python source is shallowly embedded: strings are `List Char`/`String`,
`datetime.date` values are `PyDate` triples ordered lexicographically,
Python `round(x, 1)` on a spanned-months-over-12 quotient is represented
exactly as an integer number of tenths with half-even rounding (the values
involved are never closer than 1/60 to a decimal midpoint, so the float
computation agrees with the exact rational one), and code paths that can
raise are embedded in `Except String`.  The specific regular expressions
of the source are hand-compiled to deterministic scanning functions that
implement Python's leftmost-then-greedy backtracking semantics for those
patterns.
-/

/-- ASCII digit test, the fragment of Python's regex `\d` / `str.isdigit`
exercised by the source's inputs. -/
def isPyDigit (c : Char) : Bool := decide ('0' ≤ c) && decide (c ≤ '9')

/-- Python `str.strip` whitespace set (ASCII fragment). -/
def isPySpace (c : Char) : Bool :=
  c = ' ' || c = '\t' || c = '\n' || c = '\r' || c = '\x0b' || c = '\x0c'

/-- Python `str.lower` on the character repertoire used by the source:
ASCII letters plus the accented vowels and enye occurring in the Spanish
vocabulary. -/
def pyLower (c : Char) : Char :=
  if c = 'A' then 'a' else if c = 'B' then 'b' else if c = 'C' then 'c'
  else if c = 'D' then 'd' else if c = 'E' then 'e' else if c = 'F' then 'f'
  else if c = 'G' then 'g' else if c = 'H' then 'h' else if c = 'I' then 'i'
  else if c = 'J' then 'j' else if c = 'K' then 'k' else if c = 'L' then 'l'
  else if c = 'M' then 'm' else if c = 'N' then 'n' else if c = 'O' then 'o'
  else if c = 'P' then 'p' else if c = 'Q' then 'q' else if c = 'R' then 'r'
  else if c = 'S' then 's' else if c = 'T' then 't' else if c = 'U' then 'u'
  else if c = 'V' then 'v' else if c = 'W' then 'w' else if c = 'X' then 'x'
  else if c = 'Y' then 'y' else if c = 'Z' then 'z'
  else if c = 'Á' then 'á' else if c = 'É' then 'é' else if c = 'Í' then 'í'
  else if c = 'Ó' then 'ó' else if c = 'Ú' then 'ú' else if c = 'Ñ' then 'ñ'
  else c

/-- Python `str.upper` on the same repertoire. -/
def pyUpper (c : Char) : Char :=
  if c = 'a' then 'A' else if c = 'b' then 'B' else if c = 'c' then 'C'
  else if c = 'd' then 'D' else if c = 'e' then 'E' else if c = 'f' then 'F'
  else if c = 'g' then 'G' else if c = 'h' then 'H' else if c = 'i' then 'I'
  else if c = 'j' then 'J' else if c = 'k' then 'K' else if c = 'l' then 'L'
  else if c = 'm' then 'M' else if c = 'n' then 'N' else if c = 'o' then 'O'
  else if c = 'p' then 'P' else if c = 'q' then 'Q' else if c = 'r' then 'R'
  else if c = 's' then 'S' else if c = 't' then 'T' else if c = 'u' then 'U'
  else if c = 'v' then 'V' else if c = 'w' then 'W' else if c = 'x' then 'X'
  else if c = 'y' then 'Y' else if c = 'z' then 'Z'
  else if c = 'á' then 'Á' else if c = 'é' then 'É' else if c = 'í' then 'Í'
  else if c = 'ó' then 'Ó' else if c = 'ú' then 'Ú' else if c = 'ñ' then 'Ñ'
  else c

/-- Python `str.strip()`. -/
def pyStrip (cs : List Char) : List Char :=
  ((cs.dropWhile isPySpace).reverse.dropWhile isPySpace).reverse

/-- Python substring containment `needle in hay`. -/
def isPrefixL : List Char → List Char → Bool
  | [], _ => true
  | _ :: _, [] => false
  | a :: as, b :: bs => a = b && isPrefixL as bs

def subIn (needle : List Char) : List Char → Bool
  | [] => isPrefixL needle []
  | c :: cs => isPrefixL needle (c :: cs) || subIn needle cs

/-- Exactly `n` digits from the front; returns the digits and the remaining
suffix (the rest of the regex input after the `\d{n}` atom). -/
def takeDigits : Nat → List Char → Option (List Char × List Char)
  | 0, cs => some ([], cs)
  | _ + 1, [] => none
  | n + 1, c :: cs =>
    if isPyDigit c then (takeDigits n cs).map (fun p => (c :: p.1, p.2)) else none

/-- Numeric value of a digit string (most significant first). -/
def natOfDigits (cs : List Char) : Nat :=
  cs.foldl (fun acc c => acc * 10 + (c.toNat - 48)) 0

/-- First run of four consecutive digits, i.e. `re.search(r'(\d{4})', s)`. -/
def findRun4 : List Char → Option (List Char)
  | a :: b :: c :: d :: rest =>
    if isPyDigit a && isPyDigit b && isPyDigit c && isPyDigit d then some [a, b, c, d]
    else findRun4 (b :: c :: d :: rest)
  | _ => none

/-- Python `s.split(sep)` on a single character, keeping empty pieces. -/
def splitNL : List Char → List (List Char)
  | [] => [[]]
  | c :: rest =>
    let r := splitNL rest
    if c = '\n' then [] :: r
    else
      match r with
      | h :: t => (c :: h) :: t
      | [] => [[c]]

/-- Dates as Python `datetime.date` triples `(year, month, day)`. -/
structure PyDate where
  y : Nat
  m : Nat
  d : Nat
deriving DecidableEq, Repr

/-- Python `date` comparison (strict), lexicographic on (y, m, d). -/
def dltB (a b : PyDate) : Bool :=
  Nat.blt a.y b.y || (a.y == b.y && (Nat.blt a.m b.m || (a.m == b.m && Nat.blt a.d b.d)))

/-- Python `date` comparison (non-strict). -/
def dleB (a b : PyDate) : Bool := dltB a b || a == b

/-- Month difference `(e.year - s.year) * 12 + (e.month - s.month)` as in the
timeline analyzer. -/
def monthsBetween (s e : PyDate) : Int :=
  ((e.y : Int) - (s.y : Int)) * 12 + ((e.m : Int) - (s.m : Int))

/-- Python `date.min`. -/
def dateMin : PyDate := ⟨1, 1, 1⟩

/-- Exact value of Python `round(span / 12, 1)` expressed in tenths of a
year: half-even rounding of `10 * span / 12`.  (No value of `span / 12` lies
closer than `1/60` to a decimal midpoint without being exactly a dyadic
midpoint, so the float computation of the source coincides with this exact
rounding.) -/
def pyRoundTenths (span : Int) : Int :=
  let n := 10 * span
  let q := Int.fdiv n 12
  let r := n - 12 * q
  if r < 6 then q else if 6 < r then q + 1 else if q % 2 = 0 then q else q + 1

theorem dltB_iff (a b : PyDate) :
    dltB a b = true ↔
      (a.y < b.y ∨ (a.y = b.y ∧ (a.m < b.m ∨ (a.m = b.m ∧ a.d < b.d)))) := by
  simp [dltB, Nat.blt_eq]

theorem dleB_iff (a b : PyDate) :
    dleB a b = true ↔ (dltB a b = true ∨ a = b) := by
  simp [dleB]

theorem dleB_total (a b : PyDate) : dleB a b = true ∨ dleB b a = true := by
  rcases a with ⟨ay, am, ad⟩
  rcases b with ⟨by_, bm, bd⟩
  simp only [dleB_iff, dltB_iff, PyDate.mk.injEq]
  omega

theorem dleB_trans {a b c : PyDate} (h1 : dleB a b = true) (h2 : dleB b c = true) :
    dleB a c = true := by
  rcases a with ⟨ay, am, ad⟩
  rcases b with ⟨by_, bm, bd⟩
  rcases c with ⟨cy, cm, cd⟩
  simp only [dleB_iff, dltB_iff, PyDate.mk.injEq] at h1 h2 ⊢
  omega

/-! ## Regex atoms shared by the date patterns -/

/-- Regex class `[/\-]` (separator in the numeric date patterns). -/
def isSlashDash (c : Char) : Bool := c = '/' || c = '-'

/-- Regex class `[/\- ]` (separator in the analyzer's numeric-month search). -/
def isSlashDashSpace (c : Char) : Bool := c = '/' || c = '-' || c = ' '

/-- Regex class of space, dash and slash (the gap between month part and year). -/
def isSepSp (c : Char) : Bool := c = ' ' || c = '-' || c = '/'

/-- Regex word character (`\w`) on the repertoire used by the source. -/
def isWordChar (c : Char) : Bool :=
  isPyDigit c || decide ('a' ≤ c) && decide (c ≤ 'z') || decide ('A' ≤ c) && decide (c ≤ 'Z') ||
  c = '_' || ['á', 'é', 'í', 'ó', 'ú', 'Á', 'É', 'Í', 'Ó', 'Ú', 'ñ', 'Ñ'].contains c

/-- Letter class `[a-zA-ZáéíóúÁÉÍÓÚ]` of the month-part alternatives. -/
def isMonthLetter (c : Char) : Bool :=
  decide ('a' ≤ c) && decide (c ≤ 'z') || decide ('A' ≤ c) && decide (c ≤ 'Z') ||
  ['á', 'é', 'í', 'ó', 'ú', 'Á', 'É', 'Í', 'Ó', 'Ú'].contains c

/-- Word boundary `\b` immediately before a word character: holds when the
preceding character (tracked as `prevWord`) is not a word character. -/
def bStart (prevWord : Bool) : Bool := !prevWord

/-- Word boundary `\b` immediately after a word character: the next input
character must be absent or not a word character. -/
def bEnd : List Char → Bool
  | [] => true
  | c :: _ => !isWordChar c

/-- Leftmost search: try a matcher at every start position (Python
`re.search`). -/
def searchL {α : Type} (m : List Char → Option α) : List Char → Option α
  | [] => m []
  | c :: cs => (m (c :: cs)).orElse (fun _ => searchL m cs)

/-- Leftmost search that tracks whether the previous character is a word
character (needed for `\b`). -/
def searchPW {α : Type} (m : Bool → List Char → Option α) : Bool → List Char → Option α
  | pw, [] => m pw []
  | pw, c :: cs => (m pw (c :: cs)).orElse (fun _ => searchPW m (isWordChar c) cs)

/-! ## Hand-compiled matchers for the DateNormalizer regexes -/

/-- Tail `[/\-](\d{4})` after the month group of `(\d{1,2})[/\-](\d{4})`. -/
def mmTail (g1 : List Char) : List Char → Option (List Char × List Char)
  | s :: rest =>
    if isSlashDash s then
      match takeDigits 4 rest with
      | some (g2, _) => some (g1, g2)
      | none => none
    else none
  | [] => none

/-- Match of `(\d{1,2})[/\-](\d{4})` at the head of the input, with the
greedy one-or-two-digit month group (two digits tried first, then one). -/
def matchMMYYYY (cs : List Char) : Option (List Char × List Char) :=
  (match takeDigits 2 cs with
   | some (g1, rest) => mmTail g1 rest
   | none => none).orElse (fun _ =>
   match takeDigits 1 cs with
   | some (g1, rest) => mmTail g1 rest
   | none => none)

/-- Match of `(\d{4})[/\-](\d{1,2})` at the head of the input. -/
def matchYYYYMM (cs : List Char) : Option (List Char × List Char) :=
  match takeDigits 4 cs with
  | some (g1, rest) =>
    match rest with
    | s :: rest2 =>
      if isSlashDash s then
        match takeDigits 2 rest2 with
        | some (g2, _) => some (g1, g2)
        | none =>
          match takeDigits 1 rest2 with
          | some (g2, _) => some (g1, g2)
          | none => none
      else none
    | [] => none
  | none => none

/-- Tail of `DATE_PATTERN`: separators (space, dash, slash) starred, then the
year `(\b\d{4}\b)`.  `prevWord` is the wordness
of the character immediately before this tail (for the `\b` when no
separator is consumed; the separators themselves are not word characters). -/
def sepsYearB (prevWord : Bool) (cs : List Char) : Option (List Char) :=
  if (if (cs.takeWhile isSepSp).isEmpty then prevWord else false) then none
  else
    match takeDigits 4 (cs.drop (cs.takeWhile isSepSp).length) with
    | some (y, rest2) => if bEnd rest2 then some y else none
    | none => none

/-- Alternative `\b[a-zA-ZáéíóúÁÉÍÓÚ]{3,10}\b` followed by the year tail.
Only the maximal letter run can succeed (a shorter greedy choice leaves a
letter, hence a word character, where the trailing `\b` or a digit is
required), so the run is taken whole and must have length 3..10. -/
def matchDPA (pw : Bool) (cs : List Char) : Option (Option (List Char) × List Char) :=
  if bStart pw then
    if decide (3 ≤ (cs.takeWhile isMonthLetter).length) &&
       decide ((cs.takeWhile isMonthLetter).length ≤ 10) then
      if bEnd (cs.drop (cs.takeWhile isMonthLetter).length) then
        match sepsYearB true (cs.drop (cs.takeWhile isMonthLetter).length) with
        | some y => some (some (cs.takeWhile isMonthLetter), y)
        | none => none
      else none
    else none
  else none

/-- Alternative `\b\d{1,2}\b` followed by the year tail (two digits tried
before one). -/
def matchDPB (pw : Bool) (cs : List Char) : Option (Option (List Char) × List Char) :=
  if bStart pw then
    (match takeDigits 2 cs with
     | some (g, rest) =>
       if bEnd rest then
         match sepsYearB true rest with
         | some y => some (some g, y)
         | none => none
       else none
     | none => none).orElse (fun _ =>
     match takeDigits 1 cs with
     | some (g, rest) =>
       if bEnd rest then
         match sepsYearB true rest with
         | some y => some (some g, y)
         | none => none
       else none
     | none => none)
  else none

/-- Absent optional group: just the year tail, `\b` judged from the original
previous character. -/
def matchDPC (pw : Bool) (cs : List Char) : Option (Option (List Char) × List Char) :=
  match sepsYearB pw cs with
  | some y => some (none, y)
  | none => none

/-- Match of `DATE_PATTERN`
(optional month group, starred separators, then a year, all as in the
source) at one position; alternatives in Python's backtracking order. -/
def matchDP (pw : Bool) (cs : List Char) : Option (Option (List Char) × List Char) :=
  ((matchDPA pw cs).orElse (fun _ => matchDPB pw cs)).orElse (fun _ => matchDPC pw cs)

namespace DateNormalizer

/-- The `MONTHS_MAP` table of `DateNormalizer`, in source order. -/
def MONTHS_MAP : List (String × String) :=
  [("ene", "01"), ("enero", "01"), ("jan", "01"), ("january", "01"),
   ("feb", "02"), ("febrero", "02"), ("february", "02"),
   ("mar", "03"), ("marzo", "03"), ("march", "03"),
   ("abr", "04"), ("abril", "04"), ("apr", "04"), ("april", "04"),
   ("may", "05"), ("mayo", "05"),
   ("jun", "06"), ("junio", "06"), ("june", "06"),
   ("jul", "07"), ("julio", "07"), ("july", "07"),
   ("ago", "08"), ("agosto", "08"), ("aug", "08"), ("august", "08"),
   ("sep", "09"), ("septiembre", "09"), ("september", "09"),
   ("oct", "10"), ("octubre", "10"), ("october", "10"),
   ("nov", "11"), ("noviembre", "11"), ("november", "11"),
   ("dic", "12"), ("diciembre", "12"), ("dec", "12"), ("december", "12")]

/-- Ongoing vocabulary of `DateNormalizer.normalize` (five words; the
source's list has no `now`). -/
def ongoingNormalize : List String :=
  ["present", "actualidad", "presente", "ahora", "current"]

/-- Ongoing vocabulary used inside `DateNormalizer.extract_range` (four
words; no `current`, no `now`). -/
def ongoingRange : List String := ["present", "actualidad", "presente", "ahora"]

/-- Python `str(int(g)).zfill(2)` for a month group already known to be one
or two digit characters. -/
def zfill2 (g : List Char) : List Char := if g.length = 1 then '0' :: g else g

/-- Lowered and stripped input, as computed at the top of `normalize`. -/
def cleanOf (raw : String) : List Char := pyStrip (raw.data.map pyLower)

/-- Shallow embedding of `DateNormalizer.normalize`. -/
def normalize (raw_date : String) : String :=
  if raw_date = "" then ""
  else
    let clean := cleanOf raw_date
    if ongoingNormalize.any (fun w => subIn w.data clean) then "Present"
    else
      match searchL matchMMYYYY clean with
      | some (g1, g2) => String.mk (g2 ++ '-' :: zfill2 g1)
      | none =>
        match searchL matchYYYYMM clean with
        | some (g1, g2) => String.mk (g1 ++ '-' :: zfill2 g2)
        | none =>
          match searchPW matchDP false clean with
          | some (monthPart, year) =>
            match monthPart with
            | some mp =>
              let monthKey := (mp.filter (fun c => c ≠ '.')).map pyLower
              match MONTHS_MAP.find? (fun p => p.1.data == monthKey) with
              | some p => String.mk (year ++ '-' :: p.2.data)
              | none =>
                if !monthKey.isEmpty && monthKey.all isPyDigit then
                  let m := natOfDigits monthKey
                  if 1 ≤ m && m ≤ 12 then
                    String.mk (year ++ '-' :: zfill2 (Nat.toDigits 10 m))
                  else String.mk year
                else String.mk year
            | none => String.mk year
          | none => raw_date

/-- Matcher for one `finditer` pattern occurrence in `extract_range`:
`([a-zA-ZáéíóúÁÉÍÓÚ]{3,10}|\d{1,2})?[ \-\/]*(\d{4})` (no word boundaries).
Returns the whole match `group(0)` and the suffix after the match end. -/
def matchER (cs : List Char) : Option (List Char × List Char) :=
  let tailSY : List Char → Option (List Char × List Char) := fun rest =>
    let seps := rest.takeWhile isSepSp
    let rest2 := rest.drop seps.length
    match takeDigits 4 rest2 with
    | some (y, rest3) => some (seps ++ y, rest3)
    | none => none
  ((let run := cs.takeWhile isMonthLetter
    if decide (3 ≤ run.length) && decide (run.length ≤ 10) then
      match tailSY (cs.drop run.length) with
      | some (mid, rest3) => some (run ++ mid, rest3)
      | none => none
    else none).orElse (fun _ =>
   (match takeDigits 2 cs with
    | some (g, rest) =>
      match tailSY rest with
      | some (mid, rest3) => some (g ++ mid, rest3)
      | none => none
    | none => none).orElse (fun _ =>
    match takeDigits 1 cs with
    | some (g, rest) =>
      match tailSY rest with
      | some (mid, rest3) => some (g ++ mid, rest3)
      | none => none
    | none => none))).orElse (fun _ =>
   match tailSY cs with
   | some (mid, rest3) => some (mid, rest3)
   | none => none)

/-- Python `re.finditer` driver for `matchER`: leftmost, non-overlapping.
Every match contains a four-digit year, so it consumes at least one
character and fuel `length + 1` never runs out. -/
def finditerER : Nat → List Char → List (List Char × List Char)
  | 0, _ => []
  | fuel + 1, cs =>
    match matchER cs with
    | some (g0, rest) => (g0, rest) :: finditerER fuel rest
    | none =>
      match cs with
      | [] => []
      | _ :: cs2 => finditerER fuel cs2

/-- Shallow embedding of `DateNormalizer.extract_range`. -/
def extract_range (text : String) : String × String :=
  let ms := finditerER (text.data.length + 1) text.data
  match ms with
  | m1 :: m2 :: _ =>
    let start := normalize (String.mk m1.1)
    let endSeg := pyStrip m1.2
    if ongoingRange.any (fun w => subIn w.data (endSeg.map pyLower)) then
      (start, "Present")
    else (start, normalize (String.mk m2.1))
  | [m1] =>
    let start := normalize (String.mk m1.1)
    if ongoingRange.any (fun w => subIn w.data (text.data.map pyLower)) then
      (start, "Present")
    else (start, "Unknown")
  | [] => ("Unknown", "Unknown")

/-- Validity of the one- or two-digit month of strptime's `%m`
(`1[0-2]|0[1-9]|[1-9]`), and full-match parsing of `%Y-%m` against a string
of length 6 or 7; `datetime` rejects year 0, which the callers catch, so
year 0 yields `none` here. -/
def strptimeYM (cs : List Char) : Option (Nat × Nat) :=
  match cs with
  | [a, b, c, d, dash, e, f] =>
    if dash = '-' && [a, b, c, d].all isPyDigit &&
       ((e = '1' && (f = '0' || f = '1' || f = '2')) ||
        (e = '0' && isPyDigit f && f ≠ '0')) &&
       decide (0 < natOfDigits [a, b, c, d]) then
      some (natOfDigits [a, b, c, d], natOfDigits [e, f])
    else none
  | [a, b, c, d, dash, e] =>
    if dash = '-' && [a, b, c, d].all isPyDigit && isPyDigit e && e ≠ '0' &&
       decide (0 < natOfDigits [a, b, c, d]) then
      some (natOfDigits [a, b, c, d], natOfDigits [e])
    else none
  | _ => none

/-- Shallow embedding of `DateNormalizer.parse_to_date`; `today` stands for
`date.today()`. -/
def parse_to_date (today : PyDate) (raw_date : Option String) (is_end_date : Bool) :
    Option PyDate :=
  let normalized := normalize (raw_date.getD "")
  if normalized = "" || normalized = "Unknown" then
    if is_end_date then some today else none
  else if normalized = "Present" then some today
  else if normalized.length = 7 && normalized.data.getD 4 ' ' = '-' then
    match strptimeYM normalized.data with
    | some (y, m) => some ⟨y, m, 1⟩
    | none => none
  else if normalized.length = 4 && normalized.data.all isPyDigit then
    if 0 < natOfDigits normalized.data then
      some ⟨natOfDigits normalized.data, 1, 1⟩
    else none
  else none

end DateNormalizer

/-! ## Experience records (the `ExperienceEntry` pydantic model)

The fields relevant to the core are embedded; `id`, `skills_used` and
`impact_metrics` are opaque payload untouched by every operation considered
here and are omitted.  Field defaults mirror the pydantic declaration. -/

structure ExperienceEntry where
  title : Option String := none
  company : Option String := none
  start_date : Option String := none
  end_date : Option String := none
  description : Option String := some ""
  date_confidence : String := "high"
  user_adjusted : Bool := false
  original_date_line : Option String := none
deriving DecidableEq, Repr

/-- Python truthiness of an `Optional[str]` field. -/
def truthyOpt : Option String → Bool
  | none => false
  | some s => s ≠ ""

/-- The fallback search text of the validator:
`f"{self.title or ''} {self.company or ''} {self.description or ''}"`. -/
def searchTextOf (e : ExperienceEntry) : String :=
  (e.title.getD "") ++ " " ++ (e.company.getD "") ++ " " ++ (e.description.getD "")

/-- The `check_dates` model validator of `ExperienceEntry`: on a record
without dates (and not user-adjusted), run `extract_range` over
`f"{title or ''} {company or ''} {description or ''}"` and, when a start is
found, fill the dates with confidence `medium`. -/
def checkDates (e : ExperienceEntry) : ExperienceEntry :=
  if e.user_adjusted || truthyOpt e.start_date then e
  else
    let r := DateNormalizer.extract_range (searchTextOf e)
    if r.1 ≠ "Unknown" then
      { e with start_date := some r.1,
               end_date := if r.2 ≠ "Unknown" then some r.2 else none,
               date_confidence := "medium" }
    else e

/-- Constructing an `ExperienceEntry` always runs the validator. -/
def mkExperienceEntry (e : ExperienceEntry) : ExperienceEntry := checkDates e

/-! ## Timeline analyzer -/

/-- Result record (`TimelineAnalysis` schema).  `total_years_experience` is
kept in exact tenths (Python's one-decimal float); `job_hopping_risk` is
optional because the all-undated early returns leave it at its pydantic
default `None`. -/
structure TimelineAnalysis where
  total_years_tenths : Int
  avg_tenure_months : Nat
  detected_gaps : List String
  job_hopping_risk : Option Bool
  stability_score : Int
deriving DecidableEq, Repr

def zeroAnalysis : TimelineAnalysis := ⟨0, 0, [], none, 0⟩

namespace TimelineAnalyzer

/-- Month-name table of `TimelineAnalyzer._parse_date`, in dict insertion
order (the first name contained in the cleaned string wins). -/
def months_map : List (String × Nat) :=
  [("ene", 1), ("feb", 2), ("mar", 3), ("abr", 4), ("may", 5), ("jun", 6),
   ("jul", 7), ("ago", 8), ("sep", 9), ("oct", 10), ("nov", 11), ("dic", 12),
   ("jan", 1), ("apr", 4), ("aug", 8), ("dec", 12),
   ("enero", 1), ("febrero", 2), ("marzo", 3), ("abril", 4), ("mayo", 5), ("junio", 6),
   ("julio", 7), ("agosto", 8), ("septiembre", 9), ("octubre", 10), ("noviembre", 11),
   ("diciembre", 12),
   ("january", 1), ("february", 2), ("march", 3), ("april", 4), ("june", 6),
   ("july", 7), ("august", 8), ("september", 9), ("october", 10), ("november", 11),
   ("december", 12)]

/-- Match of `(\d{1,2})[/\- ]` at the head of the input (greedy). -/
def matchMMsep (cs : List Char) : Option (List Char) :=
  (match takeDigits 2 cs with
   | some (g, rest) =>
     match rest with
     | s :: _ => if isSlashDashSpace s then some g else none
     | [] => none
   | none => none).orElse (fun _ =>
   match takeDigits 1 cs with
   | some (g, rest) =>
     match rest with
     | s :: _ => if isSlashDashSpace s then some g else none
     | [] => none
   | none => none)

/-- Shallow embedding of `TimelineAnalyzer._parse_date`.  The final
`date(year, month, 1)` raises `ValueError` for a four-digit year `0000`
(nothing catches it), hence the `Except`. -/
def parseDateE (ds : Option String) : Except String (Option PyDate) :=
  match ds with
  | none => .ok none
  | some s =>
    if s = "" then .ok none
    else
      let clean := pyStrip ((s.data.map pyLower).filter (fun c => c ≠ '.' && c ≠ ','))
      match DateNormalizer.strptimeYM (clean.take 7) with
      | some (y, m) => .ok (some ⟨y, m, 1⟩)
      | none =>
        match findRun4 clean with
        | none => .ok none
        | some ydigits =>
          let year := natOfDigits ydigits
          let month :=
            match months_map.find? (fun p => subIn p.1.data clean) with
            | some p => p.2
            | none =>
              match searchL matchMMsep clean with
              | some g =>
                let m := natOfDigits g
                if 1 ≤ m && m ≤ 12 then m else 1
              | none => 1
          if year = 0 then .error "year 0 is out of range"
          else .ok (some ⟨year, month, 1⟩)

/-- Ongoing vocabulary of `TimelineAnalyzer._get_end_date` (source order). -/
def ongoingEnd : List String := ["present", "actualidad", "presente", "current", "ahora"]

/-- Shallow embedding of `TimelineAnalyzer._get_end_date`. -/
def getEndDateE (today : PyDate) (ds : Option String) : Except String PyDate :=
  match ds with
  | none => .ok today
  | some s =>
    if s = "" then .ok today
    else
      let val := s.data.map pyLower
      if ongoingEnd.any (fun w => subIn w.data val) then .ok today
      else
        match parseDateE (some s) with
        | .error e => .error e
        | .ok (some d) => .ok d
        | .ok none => .ok today

/-- Sort key of the analyzer's ascending sort:
`self._parse_date(x.start_date) or date.min` (errors propagate, as the key
function runs inside `sorted`). -/
def startKeyE (e : ExperienceEntry) : Except String PyDate :=
  match parseDateE e.start_date with
  | .error m => .error m
  | .ok (some d) => .ok d
  | .ok none => .ok dateMin

/-- Keys are computed for every element, in list order, before sorting. -/
def keyedE : List ExperienceEntry → Except String (List (ExperienceEntry × PyDate))
  | [] => .ok []
  | e :: es =>
    match startKeyE e with
    | .error m => .error m
    | .ok k =>
      match keyedE es with
      | .error m => .error m
      | .ok r => .ok ((e, k) :: r)

/-- Ordering used by `sorted` (stable ascending on the key). -/
def ascRel (p q : ExperienceEntry × PyDate) : Prop := dleB p.2 q.2 = true

instance : DecidableRel ascRel := fun p q => decEq (dleB p.2 q.2) true

/-- State of the gap/tenure walk. -/
structure WalkState where
  lastEnd : Option PyDate
  gaps : List String
  totalMonths : Int
  count : Nat
deriving DecidableEq, Repr

/-- English month abbreviations of `strftime('%b')` (C locale). -/
def monthAbbrs : List String :=
  ["Jan", "Feb", "Mar", "Apr", "May", "Jun", "Jul", "Aug", "Sep", "Oct", "Nov", "Dec"]

/-- `strftime('%b %Y')`. -/
def strftimeBY (d : PyDate) : String := monthAbbrs.getD (d.m - 1) "" ++ " " ++ toString d.y

/-- Gap message f-string; the separator is the literal three characters
(mojibake of an en dash) present in the source file. -/
def gapMsg (lastEnd s : PyDate) (n : Int) : String :=
  "Gap detected: " ++ strftimeBY lastEnd ++ " â€“ " ++ strftimeBY s ++
  " (" ++ toString n ++ " months)"

/-- The per-record loop of `analyze`: gap detection, overlap-aware
`last_role_end` update, tenure accumulation. -/
def walkE (today : PyDate) : List ExperienceEntry → WalkState → Except String WalkState
  | [], st => .ok st
  | e :: es, st =>
    match parseDateE e.start_date with
    | .error m => .error m
    | .ok startOpt =>
      match getEndDateE today e.end_date with
      | .error m => .error m
      | .ok en =>
        match startOpt with
        | none => walkE today es st
        | some s =>
          let gaps2 :=
            match st.lastEnd with
            | some le =>
              if dltB le s then
                let gm := monthsBetween le s
                if 6 < gm then st.gaps ++ [gapMsg le s gm] else st.gaps
              else st.gaps
            | none => st.gaps
          let le2 :=
            match st.lastEnd with
            | none => some en
            | some le => if dltB le en then some en else some le
          let rm := monthsBetween s en
          let rm2 := if rm < 1 then 1 else rm
          walkE today es ⟨le2, gaps2, st.totalMonths + rm2, st.count + 1⟩

/-- Shallow embedding of `TimelineAnalyzer.analyze` over the experience
list; `today` stands for `date.today()`. -/
def analyzeE (today : PyDate) (exps : List ExperienceEntry) :
    Except String TimelineAnalysis :=
  if exps.isEmpty then .ok zeroAnalysis
  else
    let withStart := exps.filter (fun e => truthyOpt e.start_date)
    match keyedE withStart with
    | .error m => .error m
    | .ok keyed =>
      match (List.insertionSort ascRel keyed).map Prod.fst with
      | [] => .ok zeroAnalysis
      | first :: rest =>
        match parseDateE first.start_date with
        | .error m => .error m
        | .ok firstStart =>
          match getEndDateE today ((first :: rest).getLastD first).end_date with
          | .error m => .error m
          | .ok lastEnd =>
            let span : Int :=
              match firstStart with
              | some fs => monthsBetween fs lastEnd
              | none => 0
            let tenths := pyRoundTenths span
            match walkE today (first :: rest) ⟨none, [], 0, 0⟩ with
            | .error m => .error m
            | .ok st =>
              let avg : Nat := if st.count = 0 then 0 else st.totalMonths.toNat / st.count
              let jh : Bool := decide (avg < 12) && decide (2 < st.count)
              let score0 : Int := 10 - (if jh then 3 else 0) - 2 * st.gaps.length
              let score := if score0 < 1 then 1 else score0
              .ok ⟨tenths, avg, st.gaps, some jh, score⟩

end TimelineAnalyzer

/-! ## Timeline sorter -/

namespace TimelineSorter

/-- Sort key `(end, start)` of `TimelineSorter.sort`, with
`parse_to_date(entry.start_date)` / `parse_to_date(entry.end_date, True)`
each defaulting to `date.min`. -/
def sortKey (today : PyDate) (e : ExperienceEntry) : PyDate × PyDate :=
  ((DateNormalizer.parse_to_date today e.end_date true).getD dateMin,
   (DateNormalizer.parse_to_date today e.start_date false).getD dateMin)

/-- Lexicographic non-strict comparison of key tuples (Python tuple `<=`). -/
def keyLeB (a b : PyDate × PyDate) : Bool :=
  dltB a.1 b.1 || (a.1 == b.1 && dleB a.2 b.2)

/-- Ordering realized by Python's stable `list.sort(key=..., reverse=True)`:
an element goes before another iff its key is at least the other's (ties keep
original order, which stable insertion sort preserves). -/
def descRel (today : PyDate) (a b : ExperienceEntry) : Prop :=
  keyLeB (sortKey today b) (sortKey today a) = true

instance (today : PyDate) : DecidableRel (descRel today) :=
  fun a b => decEq (keyLeB (sortKey today b) (sortKey today a)) true

/-- Shallow embedding of `TimelineSorter.sort` on the experience list. -/
def sort (today : PyDate) (exps : List ExperienceEntry) : List ExperienceEntry :=
  List.insertionSort (descRel today) exps

end TimelineSorter

/-! ## Date-hint merge (`CVProcessor._merge_date_hints`) -/

/-- A `DateHint` produced by the date pre-processor. -/
structure DateHint where
  start_date : Option String := none
  end_date : Option String := none
  confidence : String := "low"
  raw_line : String := ""
deriving DecidableEq, Repr

namespace CVProcessor

/-- Index of the first raw-text line whose lowercase contains the record's
lowercase title. -/
def findTitleLine (titleL : List Char) : Nat → List (List Char) → Option Nat
  | _, [] => none
  | i, l :: ls =>
    if subIn titleL (l.map pyLower) then some i else findTitleLine titleL (i + 1) ls

/-- One probe of the hints dict: a hint present at line `k` is returned
only when its start date is truthy (otherwise the offset loop continues). -/
def tryHintAt (hints : Nat → Option DateHint) (k : Nat) : Option DateHint :=
  match hints k with
  | some h => if truthyOpt h.start_date then some h else none
  | none => none

/-- Offsets 0, 1, 2 from the matched line: the first existing hint with a
truthy start date is applied (a present hint with falsy start does not stop
the search). -/
def firstApplicableHint (hints : Nat → Option DateHint) (i : Nat) : Option DateHint :=
  ((tryHintAt hints i).orElse (fun _ => tryHintAt hints (i + 1))).orElse
    (fun _ => tryHintAt hints (i + 2))

/-- Per-record body of the merge loop. -/
def mergeOne (hints : Nat → Option DateHint) (lines : List (List Char))
    (e : ExperienceEntry) : ExperienceEntry :=
  if truthyOpt e.start_date || e.user_adjusted then e
  else
    let titleL := (e.title.getD "").data.map pyLower
    if titleL.isEmpty then e
    else
      match findTitleLine titleL 0 lines with
      | none => e
      | some i =>
        match firstApplicableHint hints i with
        | none => e
        | some h =>
          { e with start_date := h.start_date, end_date := h.end_date,
                   date_confidence := h.confidence,
                   original_date_line := some h.raw_line }

/-- Shallow embedding of `CVProcessor._merge_date_hints`; the hints dict is
a partial map from line numbers. -/
def mergeDateHints (hints : Nat → Option DateHint) (raw_text : String)
    (exps : List ExperienceEntry) : List ExperienceEntry :=
  exps.map (mergeOne hints (splitNL raw_text.data))

end CVProcessor

/-! ## Heuristic structure recoverer (`HeuristicExtractor`) -/

namespace HeuristicExtractor

/-- Section-header exclusion vocabulary (source order). -/
def EXCLUDE : List String :=
  ["RESUMEN", "HABILIDADES", "IDIOMAS", "OTROS", "EDUCACIÓN",
   "CERTIFICACIONES", "COMPETENCIAS", "ESTUDIOS", "EXPERIENCIA",
   "EXPERIENCE", "EDUCATION", "SKILLS", "CONTACTO", "CONTACT"]

/-- Keyword alternatives of `DATE_REGEX` (besides `\d{4}`), in source
order; matching is case-insensitive substring search. -/
def dateKeywords : List String :=
  ["Present", "Actualidad", "Current", "Now", "Ene", "Feb", "Mar", "Abr",
   "May", "Jun", "Jul", "Ago", "Sep", "Oct", "Nov", "Dic", "Jan", "Feb",
   "Mar", "Apr", "May", "Jun", "Jul", "Aug", "Sep", "Oct", "Nov", "Dec"]

/-- `DATE_REGEX.search(line) is not None`. -/
def hasDate (l : List Char) : Bool :=
  (findRun4 l).isSome ||
  dateKeywords.any (fun k => subIn (k.data.map pyLower) (l.map pyLower))

/-- Letters of the `is_only_date` removal character class (derived from the
keyword letters spelled inside the class), lowercase. -/
def onlyDateLetters : List Char :=
  ['a', 'b', 'c', 'd', 'e', 'f', 'g', 'i', 'j', 'l', 'm', 'n', 'o', 'p',
   'r', 's', 't', 'u', 'v', 'w', 'y']

/-- Membership in the `is_only_date` removal class: digits, whitespace,
dashes (ASCII, en, em), slash, pipe, parentheses, dot, and the class
letters case-insensitively. -/
def inOnlyDateClass (c : Char) : Bool :=
  isPyDigit c || isPySpace c || c = '-' || c = '–' || c = '—' || c = '/' ||
  c = '|' || c = '(' || c = ')' || c = '.' || onlyDateLetters.contains (pyLower c)

/-- A line is "only a date" when it has a date and stripping the removal
class leaves fewer than three characters. -/
def isOnlyDate (l : List Char) : Bool :=
  hasDate l && decide ((l.filter (fun c => !inOnlyDateClass c)).length < 3)

/-- `line.startswith(('-', '*', '•', '+', '➢', '✓'))`. -/
def isBullet : List Char → Bool
  | [] => false
  | c :: _ => ['-', '*', '•', '+', '➢', '✓'].contains c

/-- Header candidate: not a bullet, length strictly between 3 and 100, no
exclusion word inside the uppercased line. -/
def isHeaderCandidate (l : List Char) : Bool :=
  !isBullet l && decide (3 < l.length) && decide (l.length < 100) &&
  !(EXCLUDE.any (fun x => subIn x.data (l.map pyUpper)))

/-- A line starts a new chunk iff it is a header candidate and not merely a
date. -/
def splitsHeader (l : List Char) : Bool := isHeaderCandidate l && !isOnlyDate l

/-- Text chunk: a header line and its body lines. -/
structure Chunk where
  header : String
  body : List String
deriving DecidableEq, Repr

/-- Chunking once inside a chunk with header `h` and body so far `acc`. -/
def chunkBody (h : String) (acc : List String) : List String → List Chunk
  | [] => [⟨h, acc⟩]
  | l :: ls =>
    if splitsHeader l.data then ⟨h, acc⟩ :: chunkBody l [] ls
    else chunkBody h (acc ++ [l]) ls

/-- Chunking before the first header: lines accumulate into the lead-in. -/
def chunkLead : List String → List String × List Chunk
  | [] => ([], [])
  | l :: ls =>
    if splitsHeader l.data then ([], chunkBody l [] ls)
    else
      let r := chunkLead ls
      (l :: r.1, r.2)

/-- The stripped non-empty input lines. -/
def heuLines (text : String) : List String :=
  ((splitNL text.data).map (fun cs => String.mk (pyStrip cs))).filter (fun s => s ≠ "")

/-- Keyword alternatives of the title-cleanup `re.sub` (after the year
alternatives), in source order. -/
def subKeywords : List String := ["Present", "Actualidad", "Current", "Now"]

/-- Case-insensitive literal prefix match; returns the suffix. -/
def stripPrefixCI : List Char → List Char → Option (List Char)
  | [], cs => some cs
  | _ :: _, [] => none
  | p :: ps, c :: cs => if pyLower c = pyLower p then stripPrefixCI ps cs else none

/-- First keyword alternative matching (with trailing word boundary). -/
def matchKw : List String → List Char → Option (List Char)
  | [], _ => none
  | k :: ks, cs =>
    match stripPrefixCI k.data cs with
    | some rest => if bEnd rest then some rest else matchKw ks cs
    | none => matchKw ks cs

/-- Match of one alternative of
`\b(20\d{2}|19\d{2}|Present|Actualidad|Current|Now)\b` at the current
position (order as in the source). -/
def matchSubTok (pw : Bool) (cs : List Char) : Option (List Char) :=
  if bStart pw then
    (match cs with
     | '2' :: '0' :: a :: b :: rest =>
       if isPyDigit a && isPyDigit b && bEnd rest then some rest else none
     | _ => none).orElse (fun _ =>
    (match cs with
     | '1' :: '9' :: a :: b :: rest =>
       if isPyDigit a && isPyDigit b && bEnd rest then some rest else none
     | _ => none).orElse (fun _ => matchKw subKeywords cs))
  else none

/-- Driver of the cleanup `re.sub(..., '', header)`: scan left to right,
drop matches, keep other characters.  A match consumes at least three
characters, so fuel `length + 1` suffices. -/
def subDateTok : Nat → Bool → List Char → List Char
  | 0, _, cs => cs
  | _ + 1, _, [] => []
  | fuel + 1, pw, c :: cs =>
    match matchSubTok pw (c :: cs) with
    | some rest => subDateTok fuel true rest
    | none => c :: subDateTok fuel (isWordChar c) cs

/-- Python `re.split(r'[,|@]', s, 1)`: split at the first comma, pipe or at
sign, if any. -/
def splitFirstCUA : List Char → List Char × Option (List Char)
  | [] => ([], none)
  | c :: cs =>
    if c = ',' || c = '|' || c = '@' then ([], some cs)
    else
      let r := splitFirstCUA cs
      (c :: r.1, r.2)

/-- Date extraction for one chunk: the header first, then the first body
line as fallback. -/
def chunkDates (c : Chunk) : String × String :=
  let r0 := DateNormalizer.extract_range c.header
  if r0.1 = "Unknown" then
    match c.body with
    | [] => r0
    | b0 :: _ =>
      let r1 := DateNormalizer.extract_range b0
      if r1.1 ≠ "Unknown" then r1 else r0
  else r0

/-- Cleaned title line: year/ongoing tokens removed (only when a date was
found), then stripped. -/
def cleanedHeader (c : Chunk) : String :=
  if (chunkDates c).1 ≠ "Unknown" then
    String.mk (pyStrip (subDateTok (c.header.data.length + 1) false c.header.data))
  else c.header

/-- Record built from one chunk (phase 2 of `extract`), including the
validator run by the `ExperienceEntry(...)` construction. -/
def chunkToEntry (c : Chunk) : ExperienceEntry :=
  let sd := (chunkDates c).1
  let ed := (chunkDates c).2
  let ch := cleanedHeader c
  let parts := splitFirstCUA ch.data
  let company :=
    match parts.2 with
    | some _ => String.mk (pyStrip parts.1)
    | none => "Company"
  let title :=
    match parts.2 with
    | some p1 => String.mk (pyStrip p1)
    | none => ch
  let desc :=
    match c.body with
    | [] => ch
    | _ => String.intercalate "\n" c.body
  mkExperienceEntry
    { title := some (if title = "" then ch else title),
      company := some company,
      start_date := if sd ≠ "Unknown" then some sd else none,
      end_date := if ed ≠ "Unknown" then some ed else none,
      description := some desc }

/-- Output of `HeuristicExtractor.extract` (the fields it populates). -/
structure CVData where
  full_name : Option String
  summary : Option String
  experience : List ExperienceEntry
deriving DecidableEq, Repr

/-- Shallow embedding of `HeuristicExtractor.extract`. -/
def extract (text : String) : CVData :=
  let lines := heuLines text
  let lc := chunkLead lines
  { full_name := some (match lc.1 with | [] => "Candidate" | l :: _ => l),
    summary := some (match lc.1 with | [] => "" | _ => String.intercalate "\n" lc.1),
    experience := lc.2.map chunkToEntry }

end HeuristicExtractor

/-! ## Claim theorems -/

/-- C5 counterexample: the claim lists six ongoing words including `now`,
but the source's vocabulary in `normalize` has only five (no `now`): the
input `now` is not normalized to the `Present` sentinel — it falls through
every pattern and is echoed back. -/
theorem c5_now_not_present :
    DateNormalizer.normalize "now" ≠ "Present" ∧ DateNormalizer.normalize "now" = "now" := by
  constructor
  · decide
  · decide

/-- C5 (amended): for every non-empty input whose cleaned (lowercased,
stripped) form contains one of the FIVE ongoing words of the source
(`present, actualidad, presente, ahora, current` — the claim's sixth word
`now` is not in the code), `normalize` returns the `Present` sentinel; the
check is the first branch of `normalize`, so it takes precedence over every
numeric, month-name and bare-year pattern. -/
theorem c5_ongoing_word_gives_present (raw : String) (w : String)
    (hne : raw ≠ "")
    (hw : w ∈ DateNormalizer.ongoingNormalize)
    (hsub : subIn w.data (DateNormalizer.cleanOf raw) = true) :
    DateNormalizer.normalize raw = "Present" := by
  unfold DateNormalizer.normalize
  rw [if_neg hne, if_pos]
  exact List.any_eq_true.mpr ⟨w, hw, hsub⟩

/-- C5 witness: a concrete Spanish ongoing phrase normalizes to `Present`. -/
theorem c5_ongoing_word_gives_present_witness :
    DateNormalizer.normalize "Trabajo, 2020 - la actualidad" = "Present" :=
  c5_ongoing_word_gives_present "Trabajo, 2020 - la actualidad" "actualidad"
    (by decide) (by decide) (by decide)

/-- C4: the claim says no core operation is fatal, and the specification
states that nothing in the core raises.  The code violates this: for a
record whose `start_date` is the four-digit year `0000`,
`TimelineAnalyzer._parse_date` survives its guarded `strptime` call but
then executes `date(0, 1, 1)`, which raises an uncaught
`ValueError: year 0 is out of range` inside `analyze`'s sort.  The claim is
right and the code is wrong (the surrounding code catches every other parse
failure and the spec's §7 demands it), so this is a code bug, witnessed
here by the embedded error value. -/
theorem c4_analyze_raises_on_year_zero :
    TimelineAnalyzer.analyzeE ⟨2025, 10, 12⟩
        [{ title := some "X", start_date := some "0000" }] =
      Except.error "year 0 is out of range" ∧
    TimelineAnalyzer.parseDateE (some "0000") =
      Except.error "year 0 is out of range" := by
  exact ⟨rfl, rfl⟩

/-- Helper: a probe of the hints dict only returns truthy-start hints. -/
theorem tryHintAt_truthy {hints : Nat → Option DateHint} {k : Nat} {h : DateHint}
    (hh : CVProcessor.tryHintAt hints k = some h) :
    truthyOpt h.start_date = true := by
  unfold CVProcessor.tryHintAt at hh
  rcases h1 : hints k with _ | v <;> simp only [h1] at hh
  · exact absurd hh (by simp)
  · split at hh
    · rename_i ht
      rw [Option.some.injEq] at hh
      rw [← hh]
      exact ht
    · exact absurd hh (by simp)

/-- Helper: the hint applied by the merge always has a truthy start. -/
theorem firstApplicableHint_truthy {hints : Nat → Option DateHint} {i : Nat} {h : DateHint}
    (hh : CVProcessor.firstApplicableHint hints i = some h) :
    truthyOpt h.start_date = true := by
  unfold CVProcessor.firstApplicableHint at hh
  rcases h1 : CVProcessor.tryHintAt hints i with _ | v1 <;>
    simp only [h1, Option.orElse] at hh
  · rcases h2 : CVProcessor.tryHintAt hints (i + 1) with _ | v2 <;>
      simp only [h2, Option.orElse] at hh
    · rcases h3 : CVProcessor.tryHintAt hints (i + 2) with _ | v3 <;>
        simp only [h3, Option.orElse] at hh
      · exact absurd hh (by simp)
      · rw [Option.some.injEq] at hh
        rw [← hh]
        exact tryHintAt_truthy h3
    · rw [Option.some.injEq] at hh
      rw [← hh]
      exact tryHintAt_truthy h2
  · rw [Option.some.injEq] at hh
    rw [← hh]
    exact tryHintAt_truthy h1

/-- C3 counterexample: a freshly constructed record with a title containing
no date-shaped text, no start date and the defaulted confidence violates
the claimed invariant — the validator finds nothing, leaves `start_date`
absent and leaves `date_confidence` at its default `high`. -/
theorem c3_absent_start_high_confidence :
    (mkExperienceEntry { title := some "Software Engineer" }).start_date = none ∧
    (mkExperienceEntry { title := some "Software Engineer" }).date_confidence = "high" := by
  exact ⟨rfl, rfl⟩

/-- C3 (amended): the operations themselves never manufacture the
combination — a record that comes out of construction (validator included)
or of the date-hint merge with `start_date` still absent comes out exactly
as it went in, confidence untouched; the violated invariant is due solely
to the field default `high` on records built without any extractable date. -/
theorem c3_absent_start_untouched :
    (∀ e : ExperienceEntry, (mkExperienceEntry e).start_date = none →
      mkExperienceEntry e = e) ∧
    (∀ (hints : Nat → Option DateHint) (lines : List (List Char)) (e : ExperienceEntry),
      (CVProcessor.mergeOne hints lines e).start_date = none →
      CVProcessor.mergeOne hints lines e = e) := by
  constructor
  · intro e h
    by_cases hc : (e.user_adjusted || truthyOpt e.start_date) = true
    · simp [mkExperienceEntry, checkDates, hc]
    · rcases hr : DateNormalizer.extract_range (searchTextOf e) with ⟨s, en⟩
      by_cases hs : s = "Unknown"
      · simp [mkExperienceEntry, checkDates, hc, hr, hs]
      · exfalso
        have hx : (mkExperienceEntry e).start_date = some s := by
          simp [mkExperienceEntry, checkDates, hc, hr, hs]
        rw [h] at hx
        exact absurd hx (by simp)
  · intro hints lines e h
    by_cases hc : (truthyOpt e.start_date || e.user_adjusted) = true
    · simp [CVProcessor.mergeOne, hc]
    · by_cases hT : (List.map pyLower (e.title.getD "").data).isEmpty = true
      · simp [CVProcessor.mergeOne, hc, hT]
      · rcases hf : CVProcessor.findTitleLine (List.map pyLower (e.title.getD "").data) 0 lines with _ | i
        · simp [CVProcessor.mergeOne, hc, hT, hf]
        · rcases hh : CVProcessor.firstApplicableHint hints i with _ | hv
          · simp [CVProcessor.mergeOne, hc, hT, hf, hh]
          · exfalso
            have ht := firstApplicableHint_truthy hh
            have hx : (CVProcessor.mergeOne hints lines e).start_date = hv.start_date := by
              simp [CVProcessor.mergeOne, hc, hT, hf, hh]
            rw [h] at hx
            rw [← hx] at ht
            exact absurd ht (by simp [truthyOpt])

/-- C3 witness: the construction part applied at a concrete dateless
record. -/
theorem c3_absent_start_untouched_witness :
    mkExperienceEntry { title := some "Software Engineer" } =
      { title := some "Software Engineer" } :=
  c3_absent_start_untouched.1 { title := some "Software Engineer" } rfl

/-- C9: the date-hint merge maps each record independently; a record with a
truthy start date or the user-adjusted flag is returned untouched, and for
every record (hint applied or not) the non-date fields — title, company,
description, and also the user_adjusted flag — are unchanged; only
start_date, end_date, date_confidence and original_date_line can change. -/
theorem c9_merge_touches_only_date_fields :
    (∀ (hints : Nat → Option DateHint) (raw : String) (exps : List ExperienceEntry),
      CVProcessor.mergeDateHints hints raw exps =
        exps.map (CVProcessor.mergeOne hints (splitNL raw.data))) ∧
    (∀ (hints : Nat → Option DateHint) (lines : List (List Char)) (e : ExperienceEntry),
      ((truthyOpt e.start_date || e.user_adjusted) = true →
        CVProcessor.mergeOne hints lines e = e) ∧
      (CVProcessor.mergeOne hints lines e).title = e.title ∧
      (CVProcessor.mergeOne hints lines e).company = e.company ∧
      (CVProcessor.mergeOne hints lines e).description = e.description ∧
      (CVProcessor.mergeOne hints lines e).user_adjusted = e.user_adjusted) := by
  constructor
  · intro hints raw exps
    rfl
  · intro hints lines e
    constructor
    · intro hc
      simp [CVProcessor.mergeOne, hc]
    · unfold CVProcessor.mergeOne
      dsimp only
      split
      · exact ⟨rfl, rfl, rfl, rfl⟩
      · split
        · exact ⟨rfl, rfl, rfl, rfl⟩
        · split
          · exact ⟨rfl, rfl, rfl, rfl⟩
          · split
            · exact ⟨rfl, rfl, rfl, rfl⟩
            · exact ⟨rfl, rfl, rfl, rfl⟩

/-- C9 witness: a record that already carries a start date is returned
unchanged by the merge body. -/
theorem c9_merge_touches_only_date_fields_witness :
    CVProcessor.mergeOne (fun _ => none) [] { title := some "Dev", start_date := some "2020" } =
      { title := some "Dev", start_date := some "2020" } :=
  (c9_merge_touches_only_date_fields.2 (fun _ => none) []
    { title := some "Dev", start_date := some "2020" }).1 (by decide)

/-- C10 counterexample: the claim says that when the construction-time
fallback finds a start date, both `start_date` and `end_date` are
populated.  When `extract_range` finds a single date and no ongoing
marker, the end comes back `Unknown` and the code explicitly stores
`None` — the end date is NOT populated. -/
theorem c10_single_date_leaves_end_absent :
    (mkExperienceEntry { title := some "Dev 2020" }).start_date = some "2020" ∧
    (mkExperienceEntry { title := some "Dev 2020" }).end_date = none ∧
    (mkExperienceEntry { title := some "Dev 2020" }).date_confidence = "medium" := by
  exact ⟨rfl, rfl, rfl⟩

/-- C10 (amended): constructing a record with absent (falsy) start date and
`user_adjusted` false runs `extract_range` over the concatenation
`title + " " + company + " " + description`; if a start is found, the start
date is populated, the end date is populated exactly when the extraction's
end is not `Unknown` (otherwise it stays absent), and the confidence is set
to `medium`; if no start is found the record is unchanged. -/
theorem c10_construction_fallback (e : ExperienceEntry)
    (hua : e.user_adjusted = false) (hs : truthyOpt e.start_date = false) :
    ((DateNormalizer.extract_range (searchTextOf e)).1 ≠ "Unknown" →
      mkExperienceEntry e =
        { e with start_date := some (DateNormalizer.extract_range (searchTextOf e)).1,
                 end_date :=
                   if (DateNormalizer.extract_range (searchTextOf e)).2 ≠ "Unknown" then
                     some (DateNormalizer.extract_range (searchTextOf e)).2
                   else none,
                 date_confidence := "medium" }) ∧
    ((DateNormalizer.extract_range (searchTextOf e)).1 = "Unknown" →
      mkExperienceEntry e = e) := by
  constructor
  · intro hne
    simp [mkExperienceEntry, checkDates, hua, hs, hne]
  · intro heq
    simp [mkExperienceEntry, checkDates, hua, hs, heq]

/-- C10 witness: a concrete record whose description holds a full range is
auto-populated at construction time with confidence `medium`. -/
theorem c10_construction_fallback_witness :
    mkExperienceEntry
        { title := some "Dev", description := some "worked Mar 2019 - Presente on things" } =
      { title := some "Dev", description := some "worked Mar 2019 - Presente on things",
        start_date := some "2019-03", end_date := some "Present",
        date_confidence := "medium" } := by
  have h := (c10_construction_fallback
    { title := some "Dev", description := some "worked Mar 2019 - Presente on things" }
    rfl rfl).1 (by decide)
  rw [h]
  rfl

/-! ## Lemmas: every date matcher needs a run of four digits -/

theorem takeDigits_eq_some {n : Nat} {cs g rest : List Char}
    (h : takeDigits n cs = some (g, rest)) :
    g.length = n ∧ g.all isPyDigit = true ∧ cs = g ++ rest := by
  induction n generalizing cs g rest with
  | zero =>
    unfold takeDigits at h
    cases h
    simp
  | succ n ih =>
    match cs with
    | [] => exact absurd h (by simp [takeDigits])
    | c :: cs2 =>
      unfold takeDigits at h
      split at h
      · rename_i hc
        rcases hx : takeDigits n cs2 with _ | ⟨g2, rest2⟩ <;> rw [hx] at h
        · exact absurd h (by simp)
        · simp only [Option.map_some'] at h
          cases h
          obtain ⟨h1, h2, h3⟩ := ih hx
          refine ⟨by simp [h1], ?_, by simp [h3]⟩
          simp only [List.all_cons, h2, hc, Bool.and_self]
      · exact absurd h (by simp)

theorem findRun4_isSome_cons (x : Char) (l : List Char)
    (h : (findRun4 l).isSome) : (findRun4 (x :: l)).isSome := by
  rcases l with _ | ⟨a, _ | ⟨b, _ | ⟨c, rest⟩⟩⟩
  · simp [findRun4] at h
  · simp [findRun4] at h
  · simp [findRun4] at h
  · show (findRun4 (x :: a :: b :: c :: rest)).isSome
    unfold findRun4
    split
    · simp
    · exact h

theorem findRun4_isSome_of_suffix {s l : List Char} (hs : s <:+ l)
    (h : (findRun4 s).isSome) : (findRun4 l).isSome := by
  obtain ⟨t, rfl⟩ := hs
  induction t with
  | nil => exact h
  | cons x ts ih => exact findRun4_isSome_cons x _ ih

/-- A list whose first four characters are digits has a four-digit run. -/
theorem findRun4_isSome_of_prefix4 {g rest : List Char}
    (hlen : g.length = 4) (hdig : g.all isPyDigit = true) :
    (findRun4 (g ++ rest)).isSome := by
  rcases g with _ | ⟨a, _ | ⟨b, _ | ⟨c, _ | ⟨d, _ | ⟨e, g2⟩⟩⟩⟩⟩ <;> simp at hlen
  simp only [List.all_cons, List.all_nil, Bool.and_true, Bool.and_eq_true] at hdig
  obtain ⟨ha, hb, hc, hd⟩ := hdig
  simp [findRun4, ha, hb, hc, hd]

/-- Any successful `takeDigits 4` witnesses a four-digit run. -/
theorem findRun4_isSome_of_takeDigits4 {cs : List Char} {p : List Char × List Char}
    (h : takeDigits 4 cs = some p) : (findRun4 cs).isSome := by
  obtain ⟨hlen, hdig, heq⟩ := takeDigits_eq_some h
  rw [heq]
  exact findRun4_isSome_of_prefix4 hlen hdig

theorem mmTail_findRun4 {g rest : List Char} {r : List Char × List Char}
    (h : mmTail g rest = some r) : (findRun4 rest).isSome := by
  rcases rest with _ | ⟨s, rest2⟩
  · exact absurd h (by simp [mmTail])
  · rw [show mmTail g (s :: rest2) =
        (if isSlashDash s then
          match takeDigits 4 rest2 with
          | some (g2, _) => some (g, g2)
          | none => none
        else none) from rfl] at h
    split at h
    · rcases hx : takeDigits 4 rest2 with _ | p <;> rw [hx] at h
      · exact absurd h (by simp)
      · have h4 := findRun4_isSome_of_takeDigits4 hx
        exact findRun4_isSome_of_suffix (List.suffix_cons s rest2) h4
    · exact absurd h (by simp)

theorem matchMMYYYY_findRun4 {cs : List Char} {r : List Char × List Char}
    (h : matchMMYYYY cs = some r) : (findRun4 cs).isSome := by
  unfold matchMMYYYY at h
  rcases h2 : takeDigits 2 cs with _ | ⟨g2, rest2⟩ <;>
    simp only [h2, Option.orElse] at h
  · rcases h1 : takeDigits 1 cs with _ | ⟨g1, rest1⟩ <;>
      simp only [h1, Option.orElse] at h
    · exact absurd h (by simp)
    · obtain ⟨-, -, hcs⟩ := takeDigits_eq_some h1
      rw [hcs]
      exact findRun4_isSome_of_suffix (List.suffix_append g1 rest1) (mmTail_findRun4 h)
  · rcases hm : mmTail g2 rest2 with _ | rr <;> rw [hm] at h
    · rcases h1 : takeDigits 1 cs with _ | ⟨g1, rest1⟩ <;>
        simp only [h1, Option.orElse] at h
      · exact absurd h (by simp)
      · obtain ⟨-, -, hcs⟩ := takeDigits_eq_some h1
        rw [hcs]
        exact findRun4_isSome_of_suffix (List.suffix_append g1 rest1) (mmTail_findRun4 h)
    · obtain ⟨-, -, hcs⟩ := takeDigits_eq_some h2
      rw [hcs]
      exact findRun4_isSome_of_suffix (List.suffix_append g2 rest2) (mmTail_findRun4 hm)

theorem matchYYYYMM_findRun4 {cs : List Char} {r : List Char × List Char}
    (h : matchYYYYMM cs = some r) : (findRun4 cs).isSome := by
  unfold matchYYYYMM at h
  rcases h4 : takeDigits 4 cs with _ | p <;> rw [h4] at h
  · exact absurd h (by simp)
  · exact findRun4_isSome_of_takeDigits4 h4

theorem sepsYearB_findRun4 {pw : Bool} {cs y : List Char}
    (h : sepsYearB pw cs = some y) : (findRun4 cs).isSome := by
  unfold sepsYearB at h
  rcases h4 : takeDigits 4 (cs.drop (cs.takeWhile isSepSp).length) with _ | p
  · rw [h4] at h
    simp only [ite_self] at h
    exact absurd h (by simp)
  · exact findRun4_isSome_of_suffix (List.drop_suffix _ _)
      (findRun4_isSome_of_takeDigits4 h4)

theorem matchDP_findRun4 {pw : Bool} {cs : List Char} {r : Option (List Char) × List Char}
    (h : matchDP pw cs = some r) : (findRun4 cs).isSome := by
  unfold matchDP at h
  rcases hA : matchDPA pw cs with _ | rA <;> simp only [hA, Option.orElse] at h
  · rcases hB : matchDPB pw cs with _ | rB <;> simp only [hB, Option.orElse] at h
    · -- C branch
      unfold matchDPC at h
      rcases hS : sepsYearB pw cs with _ | y <;> rw [hS] at h
      · exact absurd h (by simp)
      · exact sepsYearB_findRun4 hS
    · -- B branch
      unfold matchDPB at hB
      split at hB
      · rcases h2 : takeDigits 2 cs with _ | ⟨g2, rest2⟩ <;>
          simp only [h2, Option.orElse] at hB
        · rcases h1 : takeDigits 1 cs with _ | ⟨g1, rest1⟩ <;>
            simp only [h1, Option.orElse] at hB
          · exact absurd hB (by simp)
          · split at hB
            · rcases hS : sepsYearB true rest1 with _ | y <;> rw [hS] at hB
              · exact absurd hB (by simp)
              · obtain ⟨-, -, hcs⟩ := takeDigits_eq_some h1
                rw [hcs]
                exact findRun4_isSome_of_suffix (List.suffix_append g1 rest1)
                  (sepsYearB_findRun4 hS)
            · exact absurd hB (by simp)
        · rcases hB2 :
            (if bEnd rest2 then
              match sepsYearB true rest2 with
              | some y => some (some g2, y)
              | none => none
            else none) with _ | rr
          · rw [hB2] at hB
            rcases h1 : takeDigits 1 cs with _ | ⟨g1, rest1⟩ <;>
              simp only [h1, Option.orElse] at hB
            · exact absurd hB (by simp)
            · split at hB
              · rcases hS : sepsYearB true rest1 with _ | y <;> rw [hS] at hB
                · exact absurd hB (by simp)
                · obtain ⟨-, -, hcs⟩ := takeDigits_eq_some h1
                  rw [hcs]
                  exact findRun4_isSome_of_suffix (List.suffix_append g1 rest1)
                    (sepsYearB_findRun4 hS)
              · exact absurd hB (by simp)
          · split at hB2
            · rcases hS : sepsYearB true rest2 with _ | y <;> rw [hS] at hB2
              · exact absurd hB2 (by simp)
              · obtain ⟨-, -, hcs⟩ := takeDigits_eq_some h2
                rw [hcs]
                exact findRun4_isSome_of_suffix (List.suffix_append g2 rest2)
                  (sepsYearB_findRun4 hS)
            · exact absurd hB2 (by simp)
      · exact absurd hB (by simp)
  · -- A branch
    unfold matchDPA at hA
    split at hA
    · split at hA
      · split at hA
        · rcases hS : sepsYearB true (cs.drop (cs.takeWhile isMonthLetter).length)
            with _ | y <;> rw [hS] at hA
          · exact absurd hA (by simp)
          · exact findRun4_isSome_of_suffix (List.drop_suffix _ _) (sepsYearB_findRun4 hS)
        · exact absurd hA (by simp)
      · exact absurd hA (by simp)
    · exact absurd hA (by simp)

theorem searchL_some {α : Type} {m : List Char → Option α} {cs : List Char} {r : α}
    (h : searchL m cs = some r) : ∃ s, s <:+ cs ∧ m s = some r := by
  induction cs with
  | nil => exact ⟨[], List.nil_suffix, h⟩
  | cons c cs2 ih =>
    unfold searchL at h
    rcases hm : m (c :: cs2) with _ | v <;> simp only [hm, Option.orElse] at h
    · obtain ⟨s, hs, hms⟩ := ih h
      exact ⟨s, hs.trans (List.suffix_cons c cs2), hms⟩
    · cases h
      exact ⟨c :: cs2, List.suffix_refl _, hm⟩

theorem searchPW_some {α : Type} {m : Bool → List Char → Option α} {pw : Bool}
    {cs : List Char} {r : α}
    (h : searchPW m pw cs = some r) : ∃ pw2 s, s <:+ cs ∧ m pw2 s = some r := by
  induction cs generalizing pw with
  | nil => exact ⟨pw, [], List.nil_suffix, h⟩
  | cons c cs2 ih =>
    unfold searchPW at h
    rcases hm : m pw (c :: cs2) with _ | v <;> simp only [hm, Option.orElse] at h
    · obtain ⟨pw2, s, hs, hms⟩ := ih h
      exact ⟨pw2, s, hs.trans (List.suffix_cons c cs2), hms⟩
    · cases h
      exact ⟨pw, c :: cs2, List.suffix_refl _, hm⟩

theorem isPyDigit_pyLower (c : Char) : isPyDigit (pyLower c) = isPyDigit c := by
  unfold pyLower
  by_cases h0 : c = 'A'
  · subst h0
    decide
  rw [if_neg h0]
  by_cases h1 : c = 'B'
  · subst h1
    decide
  rw [if_neg h1]
  by_cases h2 : c = 'C'
  · subst h2
    decide
  rw [if_neg h2]
  by_cases h3 : c = 'D'
  · subst h3
    decide
  rw [if_neg h3]
  by_cases h4 : c = 'E'
  · subst h4
    decide
  rw [if_neg h4]
  by_cases h5 : c = 'F'
  · subst h5
    decide
  rw [if_neg h5]
  by_cases h6 : c = 'G'
  · subst h6
    decide
  rw [if_neg h6]
  by_cases h7 : c = 'H'
  · subst h7
    decide
  rw [if_neg h7]
  by_cases h8 : c = 'I'
  · subst h8
    decide
  rw [if_neg h8]
  by_cases h9 : c = 'J'
  · subst h9
    decide
  rw [if_neg h9]
  by_cases h10 : c = 'K'
  · subst h10
    decide
  rw [if_neg h10]
  by_cases h11 : c = 'L'
  · subst h11
    decide
  rw [if_neg h11]
  by_cases h12 : c = 'M'
  · subst h12
    decide
  rw [if_neg h12]
  by_cases h13 : c = 'N'
  · subst h13
    decide
  rw [if_neg h13]
  by_cases h14 : c = 'O'
  · subst h14
    decide
  rw [if_neg h14]
  by_cases h15 : c = 'P'
  · subst h15
    decide
  rw [if_neg h15]
  by_cases h16 : c = 'Q'
  · subst h16
    decide
  rw [if_neg h16]
  by_cases h17 : c = 'R'
  · subst h17
    decide
  rw [if_neg h17]
  by_cases h18 : c = 'S'
  · subst h18
    decide
  rw [if_neg h18]
  by_cases h19 : c = 'T'
  · subst h19
    decide
  rw [if_neg h19]
  by_cases h20 : c = 'U'
  · subst h20
    decide
  rw [if_neg h20]
  by_cases h21 : c = 'V'
  · subst h21
    decide
  rw [if_neg h21]
  by_cases h22 : c = 'W'
  · subst h22
    decide
  rw [if_neg h22]
  by_cases h23 : c = 'X'
  · subst h23
    decide
  rw [if_neg h23]
  by_cases h24 : c = 'Y'
  · subst h24
    decide
  rw [if_neg h24]
  by_cases h25 : c = 'Z'
  · subst h25
    decide
  rw [if_neg h25]
  by_cases h26 : c = 'Á'
  · subst h26
    decide
  rw [if_neg h26]
  by_cases h27 : c = 'É'
  · subst h27
    decide
  rw [if_neg h27]
  by_cases h28 : c = 'Í'
  · subst h28
    decide
  rw [if_neg h28]
  by_cases h29 : c = 'Ó'
  · subst h29
    decide
  rw [if_neg h29]
  by_cases h30 : c = 'Ú'
  · subst h30
    decide
  rw [if_neg h30]
  by_cases h31 : c = 'Ñ'
  · subst h31
    decide
  rw [if_neg h31]

theorem findRun4_isSome_append {l r : List Char} (h : (findRun4 l).isSome) :
    (findRun4 (l ++ r)).isSome := by
  induction l with
  | nil =>
    rw [show findRun4 [] = none from rfl] at h
    exact absurd h (by simp)
  | cons x xs ih =>
    rcases xs with _ | ⟨a, _ | ⟨b, _ | ⟨c, rest⟩⟩⟩
    · rw [show findRun4 [x] = none from rfl] at h
      exact absurd h (by simp)
    · rw [show findRun4 [x, a] = none from rfl] at h
      exact absurd h (by simp)
    · rw [show findRun4 [x, a, b] = none from rfl] at h
      exact absurd h (by simp)
    · rw [show (x :: a :: b :: c :: rest) ++ r = x :: a :: b :: c :: (rest ++ r) from by simp]
      rw [show findRun4 (x :: a :: b :: c :: (rest ++ r)) =
          (if isPyDigit x && isPyDigit a && isPyDigit b && isPyDigit c then some [x, a, b, c]
           else findRun4 (a :: b :: c :: (rest ++ r))) from rfl]
      rw [show findRun4 (x :: a :: b :: c :: rest) =
          (if isPyDigit x && isPyDigit a && isPyDigit b && isPyDigit c then some [x, a, b, c]
           else findRun4 (a :: b :: c :: rest)) from rfl] at h
      split at h <;> rename_i hcond
      · rw [if_pos hcond]
        simp
      · rw [if_neg hcond]
        have h2 := ih h
        simpa using h2

theorem findRun4_isSome_of_infix {s l : List Char} (hi : s <:+: l)
    (h : (findRun4 s).isSome) : (findRun4 l).isSome := by
  obtain ⟨t, ht, hs⟩ := List.infix_iff_prefix_suffix.mp hi
  obtain ⟨u, rfl⟩ := ht
  exact findRun4_isSome_of_suffix hs (findRun4_isSome_append h)

theorem pyStrip_within (cs : List Char) : pyStrip cs <:+: cs := by
  have h1 : List.dropWhile isPySpace cs <:+ cs := List.dropWhile_suffix _
  have h2 : List.dropWhile isPySpace (List.dropWhile isPySpace cs).reverse <:+
      (List.dropWhile isPySpace cs).reverse := List.dropWhile_suffix _
  have h3 := List.reverse_prefix.mpr h2
  rw [List.reverse_reverse] at h3
  exact h3.isInfix.trans h1.isInfix

theorem findRun4_map_pyLower {cs : List Char}
    (h : (findRun4 (cs.map pyLower)).isSome) : (findRun4 cs).isSome := by
  induction cs with
  | nil =>
    rw [show findRun4 (List.map pyLower []) = none from rfl] at h
    exact absurd h (by simp)
  | cons x xs ih =>
    rcases xs with _ | ⟨a, _ | ⟨b, _ | ⟨c, rest⟩⟩⟩
    · rw [show findRun4 (List.map pyLower [x]) = none from rfl] at h
      exact absurd h (by simp)
    · rw [show findRun4 (List.map pyLower [x, a]) = none from rfl] at h
      exact absurd h (by simp)
    · rw [show findRun4 (List.map pyLower [x, a, b]) = none from rfl] at h
      exact absurd h (by simp)
    · rw [show findRun4 (List.map pyLower (x :: a :: b :: c :: rest)) =
          (if isPyDigit (pyLower x) && isPyDigit (pyLower a) && isPyDigit (pyLower b) &&
              isPyDigit (pyLower c) then
             some [pyLower x, pyLower a, pyLower b, pyLower c]
           else findRun4 (pyLower a :: pyLower b :: pyLower c :: List.map pyLower rest))
          from rfl] at h
      rw [isPyDigit_pyLower, isPyDigit_pyLower, isPyDigit_pyLower, isPyDigit_pyLower] at h
      rw [show findRun4 (x :: a :: b :: c :: rest) =
          (if isPyDigit x && isPyDigit a && isPyDigit b && isPyDigit c then some [x, a, b, c]
           else findRun4 (a :: b :: c :: rest)) from rfl]
      split at h <;> rename_i hcond
      · rw [if_pos hcond]
        simp
      · rw [if_neg hcond]
        refine ih ?_
        simpa using h

theorem findRun4_cleanOf {raw : String} (h4 : findRun4 raw.data = none) :
    findRun4 (DateNormalizer.cleanOf raw) = none := by
  rcases hx : findRun4 (DateNormalizer.cleanOf raw) with _ | v
  · rfl
  · exfalso
    have h1 : (findRun4 (DateNormalizer.cleanOf raw)).isSome := by
      rw [hx]
      rfl
    have h2 : (findRun4 (raw.data.map pyLower)).isSome :=
      findRun4_isSome_of_infix (pyStrip_within _) h1
    have h3 := findRun4_map_pyLower h2
    rw [h4] at h3
    exact absurd h3 (by simp)

/-- C2 counterexample: `normalize` on the empty string returns the empty
string (not the `Unknown` sentinel), and on a non-empty unparseable input
it echoes the input back unchanged (the source comments this as avoiding
data loss); it does not return `Unknown` in either case. -/
theorem c2_normalize_echoes_input :
    DateNormalizer.normalize "" = "" ∧ DateNormalizer.normalize "" ≠ "Unknown" ∧
    DateNormalizer.normalize "hello" = "hello" ∧
    DateNormalizer.normalize "hello" ≠ "Unknown" := by
  exact ⟨rfl, by decide, rfl, by decide⟩

/-- C2 (amended): `normalize` never guesses a year, but its failure value
is not the `Unknown` sentinel: the empty string yields the empty string,
and every non-empty input without four consecutive digits (hence without a
4-digit year token) and without an ongoing word in its cleaned form is
returned unchanged. -/
theorem c2_no_year_echoes_input (raw : String)
    (hne : raw ≠ "")
    (hno : ∀ w ∈ DateNormalizer.ongoingNormalize,
      subIn w.data (DateNormalizer.cleanOf raw) = false)
    (h4 : findRun4 raw.data = none) :
    DateNormalizer.normalize raw = raw ∧ DateNormalizer.normalize "" = "" := by
  refine ⟨?_, rfl⟩
  have hclean : findRun4 (DateNormalizer.cleanOf raw) = none := findRun4_cleanOf h4
  have hany : DateNormalizer.ongoingNormalize.any
      (fun w => subIn w.data (DateNormalizer.cleanOf raw)) = false := by
    rw [List.any_eq_false]
    intro w hw
    simp [hno w hw]
  have hmm : searchL matchMMYYYY (DateNormalizer.cleanOf raw) = none := by
    rcases hs : searchL matchMMYYYY (DateNormalizer.cleanOf raw) with _ | r
    · rfl
    · exfalso
      obtain ⟨s, hsfx, hm⟩ := searchL_some hs
      have hrun := findRun4_isSome_of_suffix hsfx (matchMMYYYY_findRun4 hm)
      rw [hclean] at hrun
      exact absurd hrun (by simp)
  have hym : searchL matchYYYYMM (DateNormalizer.cleanOf raw) = none := by
    rcases hs : searchL matchYYYYMM (DateNormalizer.cleanOf raw) with _ | r
    · rfl
    · exfalso
      obtain ⟨s, hsfx, hm⟩ := searchL_some hs
      have hrun := findRun4_isSome_of_suffix hsfx (matchYYYYMM_findRun4 hm)
      rw [hclean] at hrun
      exact absurd hrun (by simp)
  have hdp : searchPW matchDP false (DateNormalizer.cleanOf raw) = none := by
    rcases hs : searchPW matchDP false (DateNormalizer.cleanOf raw) with _ | r
    · rfl
    · exfalso
      obtain ⟨pw2, s, hsfx, hm⟩ := searchPW_some hs
      have hrun := findRun4_isSome_of_suffix hsfx (matchDP_findRun4 hm)
      rw [hclean] at hrun
      exact absurd hrun (by simp)
  unfold DateNormalizer.normalize
  rw [if_neg hne]
  simp only [hany, Bool.false_eq_true, if_false, hmm, hym, hdp]

/-- C2 witness: a concrete year-free input is echoed back unchanged. -/
theorem c2_no_year_echoes_input_witness :
    DateNormalizer.normalize "hello world" = "hello world" ∧
    DateNormalizer.normalize "" = "" :=
  c2_no_year_echoes_input "hello world" (by decide) (by decide) (by decide)

/-! ## Two-record evaluation of the analyzer -/

/-- Clamped per-role tenure of the analyzer (minimum one month). -/
def tenureMonths (s e : PyDate) : Int :=
  if monthsBetween s e < 1 then 1 else monthsBetween s e

/-- Gap list produced by the analyzer's walk over two resolved records in
start order, with the first record's resolved end `e1` and the second's
resolved start `d2`. -/
def gapsTwo (e1 d2 : PyDate) : List String :=
  if dltB e1 d2 then
    if 6 < monthsBetween e1 d2 then
      [TimelineAnalyzer.gapMsg e1 d2 (monthsBetween e1 d2)]
    else []
  else []

theorem gapsTwo_length (e1 d2 : PyDate) :
    (gapsTwo e1 d2).length =
      if dltB e1 d2 && decide (6 < monthsBetween e1 d2) then 1 else 0 := by
  by_cases hd : dltB e1 d2 = true <;> by_cases hm : 6 < monthsBetween e1 d2 <;>
    simp [gapsTwo, hd, hm]

theorem truthy_of_parse_some {o : Option String} {d : PyDate}
    (h : TimelineAnalyzer.parseDateE o = .ok (some d)) : truthyOpt o = true := by
  rcases o with _ | s
  · simp [TimelineAnalyzer.parseDateE] at h
  · by_cases hs : s = ""
    · subst hs
      simp [TimelineAnalyzer.parseDateE] at h
    · simp [truthyOpt, hs]

theorem analyzeE_two (today : PyDate) (r1 r2 : ExperienceEntry) (d1 d2 e1 e2 : PyDate)
    (h1 : TimelineAnalyzer.parseDateE r1.start_date = .ok (some d1))
    (h2 : TimelineAnalyzer.parseDateE r2.start_date = .ok (some d2))
    (hle : dleB d1 d2 = true)
    (he1 : TimelineAnalyzer.getEndDateE today r1.end_date = .ok e1)
    (he2 : TimelineAnalyzer.getEndDateE today r2.end_date = .ok e2) :
    TimelineAnalyzer.analyzeE today [r1, r2] =
      .ok ⟨pyRoundTenths (monthsBetween d1 e2),
           (tenureMonths d1 e1 + tenureMonths d2 e2).toNat / 2,
           gapsTwo e1 d2,
           some false,
           10 - 2 * (gapsTwo e1 d2).length⟩ := by
  have ht1 := truthy_of_parse_some h1
  have ht2 := truthy_of_parse_some h2
  have hfilter : [r1, r2].filter (fun e => truthyOpt e.start_date) = [r1, r2] := by
    simp [List.filter, ht1, ht2]
  have hk1 : TimelineAnalyzer.startKeyE r1 = .ok d1 := by
    unfold TimelineAnalyzer.startKeyE
    rw [h1]
  have hk2 : TimelineAnalyzer.startKeyE r2 = .ok d2 := by
    unfold TimelineAnalyzer.startKeyE
    rw [h2]
  have hkeyed : TimelineAnalyzer.keyedE [r1, r2] = .ok [(r1, d1), (r2, d2)] := by
    simp only [TimelineAnalyzer.keyedE, hk1, hk2]
  have hsort : List.insertionSort TimelineAnalyzer.ascRel [(r1, d1), (r2, d2)] =
      [(r1, d1), (r2, d2)] := by
    simp [List.insertionSort, List.orderedInsert, TimelineAnalyzer.ascRel, hle]
  have hwalk : TimelineAnalyzer.walkE today [r1, r2] ⟨none, [], 0, 0⟩ =
      .ok ⟨if dltB e1 e2 then some e2 else some e1,
           gapsTwo e1 d2,
           tenureMonths d1 e1 + tenureMonths d2 e2, 2⟩ := by
    simp only [TimelineAnalyzer.walkE, h1, h2, he1, he2]
    unfold gapsTwo tenureMonths
    simp [add_assoc, add_comm]
  have hlen : (gapsTwo e1 d2).length ≤ 1 := by
    unfold gapsTwo
    split
    · split <;> simp
    · simp
  have hscore : ¬((10 - (if (false : Bool) then (3 : Int) else 0) -
      2 * (gapsTwo e1 d2).length) < 1) := by
    simp only [Bool.false_eq_true, if_false]
    omega
  unfold TimelineAnalyzer.analyzeE
  simp only [List.isEmpty_cons, Bool.false_eq_true, if_false, hfilter, hkeyed, hsort,
    List.map_cons, List.map_nil, h1, List.getLastD, he2, hwalk]
  simp only [List.getLast]
  rw [he2]
  simp only [hwalk]
  have hsc : ¬((10 : Int) - 2 * ((gapsTwo e1 d2).length : Int) < 1) := by omega
  simp [hsc]

/-- Projection helpers for stating analyzer results. -/
def totalTenthsOf : Except String TimelineAnalysis → Option Int
  | .ok a => some a.total_years_tenths
  | .error _ => none

def gapsCountOf : Except String TimelineAnalysis → Option Nat
  | .ok a => some a.detected_gaps.length
  | .error _ => none

/-- Claim-version of the total-experience computation, following the words
of claim C1: months between the earliest resolved start and the MAXIMUM
resolved end taken across all records, divided by 12 rounded to one
decimal (in tenths), and 0.1 (one tenth, never 0) when the span computes
to exactly zero months. -/
def claimTotalYearsTenths (today : PyDate) (exps : List ExperienceEntry) : Option Int :=
  match exps.filterMap (fun e =>
    match TimelineAnalyzer.parseDateE e.start_date,
          TimelineAnalyzer.getEndDateE today e.end_date with
    | .ok (some d), .ok en => some (d, en)
    | _, _ => none) with
  | [] => none
  | p :: ps =>
    let minStart := ps.foldl (fun acc q => if dltB q.1 acc then q.1 else acc) p.1
    let maxEnd := ps.foldl (fun acc q => if dltB acc q.2 then q.2 else acc) p.2
    let span := monthsBetween minStart maxEnd
    some (if span = 0 then 1 else pyRoundTenths span)

/-- C1 counterexample: two records where the record that starts last ends
long before the other record's end.  The code computes 24 months (2.0
years, 20 tenths) from the earliest start to the end of the LAST record by
start order, while the claim's formula (maximum end across all records)
gives 240 months (20.0 years, 200 tenths).  Also, a single record with a
zero-month span yields 0.0, not the claimed 0.1 floor (the claim formula
gives 1 tenth). -/
theorem c1_total_span_counterexample :
    TimelineAnalyzer.analyzeE ⟨2025, 10, 12⟩
        [{ start_date := some "2010-01", end_date := some "2030-01" },
         { start_date := some "2011-01", end_date := some "2012-01" }] =
      .ok ⟨20, 126, [], some false, 10⟩ ∧
    claimTotalYearsTenths ⟨2025, 10, 12⟩
        [{ start_date := some "2010-01", end_date := some "2030-01" },
         { start_date := some "2011-01", end_date := some "2012-01" }] = some 200 ∧
    TimelineAnalyzer.analyzeE ⟨2025, 10, 12⟩
        [{ start_date := some "2020-05", end_date := some "2020-05" }] =
      .ok ⟨0, 1, [], some false, 10⟩ ∧
    claimTotalYearsTenths ⟨2025, 10, 12⟩
        [{ start_date := some "2020-05", end_date := some "2020-05" }] = some 1 := by
  exact ⟨rfl, rfl, rfl, rfl⟩

/-- C1 (amended): for two records with resolvable starts in ascending
start order, `total_years_experience` is the months between the earliest
start and the resolved end OF THE RECORD THAT STARTS LAST (not the maximum
end across records — the first record's end `e1` does not appear in the
result), divided by 12 with Python's one-decimal rounding; a zero span
yields 0.0 (the rounding of zero), with no 0.1 floor. -/
theorem c1_total_years_last_by_start (today : PyDate) (r1 r2 : ExperienceEntry)
    (d1 d2 e1 e2 : PyDate)
    (h1 : TimelineAnalyzer.parseDateE r1.start_date = .ok (some d1))
    (h2 : TimelineAnalyzer.parseDateE r2.start_date = .ok (some d2))
    (hle : dleB d1 d2 = true)
    (he1 : TimelineAnalyzer.getEndDateE today r1.end_date = .ok e1)
    (he2 : TimelineAnalyzer.getEndDateE today r2.end_date = .ok e2) :
    totalTenthsOf (TimelineAnalyzer.analyzeE today [r1, r2]) =
      some (pyRoundTenths (monthsBetween d1 e2)) := by
  rw [analyzeE_two today r1 r2 d1 d2 e1 e2 h1 h2 hle he1 he2]
  rfl

/-- C1 witness: the amended total applied at the counterexample records. -/
theorem c1_total_years_last_by_start_witness :
    totalTenthsOf (TimelineAnalyzer.analyzeE ⟨2025, 10, 12⟩
        [{ start_date := some "2010-01", end_date := some "2030-01" },
         { start_date := some "2011-01", end_date := some "2012-01" }]) =
      some (pyRoundTenths (monthsBetween ⟨2010, 1, 1⟩ ⟨2012, 1, 1⟩)) :=
  c1_total_years_last_by_start ⟨2025, 10, 12⟩
    { start_date := some "2010-01", end_date := some "2030-01" }
    { start_date := some "2011-01", end_date := some "2012-01" }
    ⟨2010, 1, 1⟩ ⟨2011, 1, 1⟩ ⟨2030, 1, 1⟩ ⟨2012, 1, 1⟩
    rfl rfl (by decide) rfl rfl

/-- C6: for two records with resolvable starts in ascending start order,
the walk emits a detected-gap entry if and only if the second record's
start is strictly after the running `last_role_end` (the first record's
resolved end) and the month distance strictly exceeds 6. -/
theorem c6_gap_rule (today : PyDate) (r1 r2 : ExperienceEntry) (d1 d2 e1 e2 : PyDate)
    (h1 : TimelineAnalyzer.parseDateE r1.start_date = .ok (some d1))
    (h2 : TimelineAnalyzer.parseDateE r2.start_date = .ok (some d2))
    (hle : dleB d1 d2 = true)
    (he1 : TimelineAnalyzer.getEndDateE today r1.end_date = .ok e1)
    (he2 : TimelineAnalyzer.getEndDateE today r2.end_date = .ok e2) :
    gapsCountOf (TimelineAnalyzer.analyzeE today [r1, r2]) =
      some (if dltB e1 d2 && decide (6 < monthsBetween e1 d2) then 1 else 0) := by
  rw [analyzeE_two today r1 r2 d1 d2 e1 e2 h1 h2 hle he1 he2]
  simp only [gapsCountOf, gapsTwo_length]

/-- C6 witness: end 2019-01 with next start 2019-08 (7 months) yields
exactly one gap; end 2019-01 with next start 2019-07 (6 months) yields
none — the boundary is exclusive at 6. -/
theorem c6_gap_rule_witness :
    gapsCountOf (TimelineAnalyzer.analyzeE ⟨2025, 10, 12⟩
        [{ start_date := some "2018-01", end_date := some "2019-01" },
         { start_date := some "2019-08", end_date := some "2020-01" }]) = some 1 ∧
    gapsCountOf (TimelineAnalyzer.analyzeE ⟨2025, 10, 12⟩
        [{ start_date := some "2018-01", end_date := some "2019-01" },
         { start_date := some "2019-07", end_date := some "2020-01" }]) = some 0 := by
  constructor
  · rw [c6_gap_rule ⟨2025, 10, 12⟩
      { start_date := some "2018-01", end_date := some "2019-01" }
      { start_date := some "2019-08", end_date := some "2020-01" }
      ⟨2018, 1, 1⟩ ⟨2019, 8, 1⟩ ⟨2019, 1, 1⟩ ⟨2020, 1, 1⟩
      rfl rfl (by decide) rfl rfl]
    decide
  · rw [c6_gap_rule ⟨2025, 10, 12⟩
      { start_date := some "2018-01", end_date := some "2019-01" }
      { start_date := some "2019-07", end_date := some "2020-01" }
      ⟨2018, 1, 1⟩ ⟨2019, 7, 1⟩ ⟨2019, 1, 1⟩ ⟨2020, 1, 1⟩
      rfl rfl (by decide) rfl rfl]
    decide

/-! ## Order lemmas for the sorter key -/

theorem keyLeB_total (a b : PyDate × PyDate) :
    TimelineSorter.keyLeB a b = true ∨ TimelineSorter.keyLeB b a = true := by
  rcases a with ⟨⟨ay, am, ad⟩, ⟨cy, cm, cd⟩⟩
  rcases b with ⟨⟨by_, bm, bd⟩, ⟨dy, dm, dd⟩⟩
  simp only [TimelineSorter.keyLeB, dleB, dltB, Bool.or_eq_true, Bool.and_eq_true,
    beq_iff_eq, Nat.blt_eq, PyDate.mk.injEq]
  omega

theorem keyLeB_trans {a b c : PyDate × PyDate}
    (h1 : TimelineSorter.keyLeB a b = true) (h2 : TimelineSorter.keyLeB b c = true) :
    TimelineSorter.keyLeB a c = true := by
  rcases a with ⟨⟨ay, am, ad⟩, ⟨cy2, cm2, cd2⟩⟩
  rcases b with ⟨⟨by_, bm, bd⟩, ⟨dy, dm, dd⟩⟩
  rcases c with ⟨⟨ey, em, ed⟩, ⟨fy, fm, fd⟩⟩
  simp only [TimelineSorter.keyLeB, dleB, dltB, Bool.or_eq_true, Bool.and_eq_true,
    beq_iff_eq, Nat.blt_eq, PyDate.mk.injEq] at h1 h2 ⊢
  omega

/-- C7: `TimelineSorter.sort` returns the same record objects reordered by
the key `(resolved end, resolved start)`, both descending: the result is a
permutation of the input that is pairwise ordered with each record's key at
least the next record's key; a `Present` or absent end date resolves to
`today` (so such records sort most recent); and the three concrete records
spanning (2010,2012), (2020,Present), (2015,2018) come out in the order
(2020,Present), (2015,2018), (2010,2012). -/
theorem c7_sort_by_end_start_desc :
    (∀ (today : PyDate) (exps : List ExperienceEntry),
      List.Perm (TimelineSorter.sort today exps) exps ∧
      List.Pairwise (fun a b =>
        TimelineSorter.keyLeB (TimelineSorter.sortKey today b)
          (TimelineSorter.sortKey today a) = true)
        (TimelineSorter.sort today exps)) ∧
    (∀ (today : PyDate) (e : ExperienceEntry),
      e.end_date = none ∨ e.end_date = some "Present" →
      (TimelineSorter.sortKey today e).1 = today) ∧
    TimelineSorter.sort ⟨2025, 10, 12⟩
        [{ title := some "A", start_date := some "2010", end_date := some "2012" },
         { title := some "B", start_date := some "2020", end_date := some "Present" },
         { title := some "C", start_date := some "2015", end_date := some "2018" }] =
      [{ title := some "B", start_date := some "2020", end_date := some "Present" },
       { title := some "C", start_date := some "2015", end_date := some "2018" },
       { title := some "A", start_date := some "2010", end_date := some "2012" }] := by
  refine ⟨fun today exps => ⟨List.perm_insertionSort _ _, ?_⟩, fun today e h => ?_, by decide⟩
  · haveI hT : IsTotal ExperienceEntry (TimelineSorter.descRel today) :=
      ⟨fun a b => keyLeB_total (TimelineSorter.sortKey today b) (TimelineSorter.sortKey today a)⟩
    haveI hR : IsTrans ExperienceEntry (TimelineSorter.descRel today) :=
      ⟨fun a b c hab hbc => keyLeB_trans hbc hab⟩
    exact List.sorted_insertionSort (TimelineSorter.descRel today) exps
  · rcases h with h | h <;>
      simp [TimelineSorter.sortKey, h,
        show DateNormalizer.parse_to_date today none true = some today from rfl,
        show DateNormalizer.parse_to_date today (some "Present") true = some today from rfl]

/-- C7 witness: the Present-resolves-to-today conjunct and the permutation
conjunct applied at concrete inputs. -/
theorem c7_sort_by_end_start_desc_witness :
    (TimelineSorter.sortKey ⟨2025, 10, 12⟩ { end_date := some "Present" }).1 =
      ⟨2025, 10, 12⟩ ∧
    List.Perm (TimelineSorter.sort ⟨2025, 10, 12⟩ [{ title := some "A" }])
      [{ title := some "A" }] :=
  ⟨c7_sort_by_end_start_desc.2.1 ⟨2025, 10, 12⟩ { end_date := some "Present" } (Or.inr rfl),
   (c7_sort_by_end_start_desc.1 ⟨2025, 10, 12⟩ [{ title := some "A" }]).1⟩

/-! ## Partition lemmas for the heuristic recoverer -/

theorem chunkBody_flat (ls : List String) (h : String) (acc : List String) :
    (HeuristicExtractor.chunkBody h acc ls).flatMap (fun c => c.header :: c.body) =
      h :: acc ++ ls := by
  induction ls generalizing h acc with
  | nil => simp [HeuristicExtractor.chunkBody]
  | cons l ls2 ih =>
    unfold HeuristicExtractor.chunkBody
    split
    · simp [ih]
    · rw [ih]
      simp

theorem chunkLead_flat (ls : List String) :
    (HeuristicExtractor.chunkLead ls).1 ++
      ((HeuristicExtractor.chunkLead ls).2.flatMap (fun c => c.header :: c.body)) = ls := by
  induction ls with
  | nil => simp [HeuristicExtractor.chunkLead]
  | cons l ls2 ih =>
    unfold HeuristicExtractor.chunkLead
    split
    · simp [chunkBody_flat]
    · simpa using ih

theorem checkDates_description (e : ExperienceEntry) :
    (checkDates e).description = e.description := by
  unfold checkDates
  split
  · rfl
  · dsimp only
    split
    · rfl
    · rfl

theorem mk_description (e : ExperienceEntry) :
    (mkExperienceEntry e).description = e.description :=
  checkDates_description e

theorem chunkToEntry_description (c : HeuristicExtractor.Chunk) :
    (HeuristicExtractor.chunkToEntry c).description =
      some (match c.body with
            | [] => HeuristicExtractor.cleanedHeader c
            | _ => String.intercalate "\n" c.body) := by
  unfold HeuristicExtractor.chunkToEntry
  dsimp only
  rw [mk_description]

/-- C8: the recoverer loses no text — the lead-in followed by each chunk's
header and body lines, in order, is exactly the list of non-empty stripped
input lines (so every such line lands in the lead-in or in exactly one
chunk, as header or body); the produced records are exactly the chunks in
order; and each record's description reproduces its chunk's body lines
verbatim, joined with newlines (for a body-less chunk the description is
the cleaned header, and there are no body lines to reproduce). -/
theorem c8_no_text_loss (text : String) :
    (HeuristicExtractor.chunkLead (HeuristicExtractor.heuLines text)).1 ++
      ((HeuristicExtractor.chunkLead (HeuristicExtractor.heuLines text)).2.flatMap
        (fun c => c.header :: c.body)) = HeuristicExtractor.heuLines text ∧
    (HeuristicExtractor.extract text).experience =
      (HeuristicExtractor.chunkLead (HeuristicExtractor.heuLines text)).2.map
        HeuristicExtractor.chunkToEntry ∧
    ∀ c ∈ (HeuristicExtractor.chunkLead (HeuristicExtractor.heuLines text)).2,
      (HeuristicExtractor.chunkToEntry c).description =
        some (match c.body with
              | [] => HeuristicExtractor.cleanedHeader c
              | _ => String.intercalate "\n" c.body) :=
  ⟨chunkLead_flat _, rfl, fun c _ => chunkToEntry_description c⟩

/-- C8 witness: a concrete two-bullet body is reproduced verbatim. -/
theorem c8_no_text_loss_witness :
    (HeuristicExtractor.chunkToEntry
        ⟨"Header line one", ["- body a", "- body b"]⟩).description =
      some "- body a\n- body b" := by
  have h := (c8_no_text_loss "Header line one\n- body a\n- body b").2.2
    ⟨"Header line one", ["- body a", "- body b"]⟩ (by decide)
  rw [h]
  rfl
